import Mathlib

/-!
Verification of the pharmagent-leaderboard results normalization and
ranking engine (`results_format_adapter.py`, `metrics.py`).

JSON documents are modelled by `JVal`; Python dicts become association
lists preserving insertion order; Python numbers become `ℚ` so that the
arithmetic in the source (`/`, `1.0 - accuracy`) is exact; fallible
Python code (KeyError, TypeError, AttributeError, ValueError) becomes
`Except String`.  External effects used by the source — reading
`scenario.toml` and `datetime.now()` — are passed as explicit
parameters (`fs : Option JObj`, `now : String`).
-/

namespace Pharma

/-- A JSON value, as decoded by Python's `json.load`. -/
inductive JVal where
  | null : JVal
  | bool : Bool → JVal
  | num : ℚ → JVal
  | str : String → JVal
  | arr : List JVal → JVal
  | obj : List (String × JVal) → JVal

mutual

/-- Decidable equality on JSON values (hand-rolled: `deriving` does not
handle the nesting through `List`). -/
def JVal.decEq : (a b : JVal) → Decidable (a = b)
  | .null, .null => isTrue rfl
  | .null, .bool _ => isFalse (fun h => nomatch h)
  | .null, .num _ => isFalse (fun h => nomatch h)
  | .null, .str _ => isFalse (fun h => nomatch h)
  | .null, .arr _ => isFalse (fun h => nomatch h)
  | .null, .obj _ => isFalse (fun h => nomatch h)
  | .bool _, .null => isFalse (fun h => nomatch h)
  | .bool a, .bool b =>
      if h : a = b then isTrue (by rw [h]) else isFalse (fun hh => h (by cases hh; rfl))
  | .bool _, .num _ => isFalse (fun h => nomatch h)
  | .bool _, .str _ => isFalse (fun h => nomatch h)
  | .bool _, .arr _ => isFalse (fun h => nomatch h)
  | .bool _, .obj _ => isFalse (fun h => nomatch h)
  | .num _, .null => isFalse (fun h => nomatch h)
  | .num _, .bool _ => isFalse (fun h => nomatch h)
  | .num a, .num b =>
      if h : a = b then isTrue (by rw [h]) else isFalse (fun hh => h (by cases hh; rfl))
  | .num _, .str _ => isFalse (fun h => nomatch h)
  | .num _, .arr _ => isFalse (fun h => nomatch h)
  | .num _, .obj _ => isFalse (fun h => nomatch h)
  | .str _, .null => isFalse (fun h => nomatch h)
  | .str _, .bool _ => isFalse (fun h => nomatch h)
  | .str _, .num _ => isFalse (fun h => nomatch h)
  | .str a, .str b =>
      if h : a = b then isTrue (by rw [h]) else isFalse (fun hh => h (by cases hh; rfl))
  | .str _, .arr _ => isFalse (fun h => nomatch h)
  | .str _, .obj _ => isFalse (fun h => nomatch h)
  | .arr _, .null => isFalse (fun h => nomatch h)
  | .arr _, .bool _ => isFalse (fun h => nomatch h)
  | .arr _, .num _ => isFalse (fun h => nomatch h)
  | .arr _, .str _ => isFalse (fun h => nomatch h)
  | .arr xs, .arr ys =>
      match JVal.decEqList xs ys with
      | isTrue h => isTrue (by rw [h])
      | isFalse h => isFalse (fun hh => h (by cases hh; rfl))
  | .arr _, .obj _ => isFalse (fun h => nomatch h)
  | .obj _, .null => isFalse (fun h => nomatch h)
  | .obj _, .bool _ => isFalse (fun h => nomatch h)
  | .obj _, .num _ => isFalse (fun h => nomatch h)
  | .obj _, .str _ => isFalse (fun h => nomatch h)
  | .obj _, .arr _ => isFalse (fun h => nomatch h)
  | .obj xs, .obj ys =>
      match JVal.decEqObjList xs ys with
      | isTrue h => isTrue (by rw [h])
      | isFalse h => isFalse (fun hh => h (by cases hh; rfl))

/-- Decidable equality on lists of JSON values. -/
def JVal.decEqList : (xs ys : List JVal) → Decidable (xs = ys)
  | [], [] => isTrue rfl
  | [], _ :: _ => isFalse (fun h => nomatch h)
  | _ :: _, [] => isFalse (fun h => nomatch h)
  | x :: xs, y :: ys =>
      match JVal.decEq x y, JVal.decEqList xs ys with
      | isTrue h1, isTrue h2 => isTrue (by rw [h1, h2])
      | isFalse h1, _ => isFalse (fun hh => h1 (by cases hh; rfl))
      | _, isFalse h2 => isFalse (fun hh => h2 (by cases hh; rfl))

/-- Decidable equality on key/value binding lists. -/
def JVal.decEqObjList : (xs ys : List (String × JVal)) → Decidable (xs = ys)
  | [], [] => isTrue rfl
  | [], _ :: _ => isFalse (fun h => nomatch h)
  | _ :: _, [] => isFalse (fun h => nomatch h)
  | (k1, v1) :: xs, (k2, v2) :: ys =>
      if hk : k1 = k2 then
        match JVal.decEq v1 v2, JVal.decEqObjList xs ys with
        | isTrue h1, isTrue h2 => isTrue (by rw [hk, h1, h2])
        | isFalse h1, _ => isFalse (fun hh => h1 (by cases hh; rfl))
        | _, isFalse h2 => isFalse (fun hh => h2 (by cases hh; rfl))
      else isFalse (fun hh => hk (by cases hh; rfl))

end

instance : DecidableEq JVal := JVal.decEq

instance {ε α : Type} [DecidableEq ε] [DecidableEq α] : DecidableEq (Except ε α)
  | .ok a, .ok b =>
      if h : a = b then isTrue (by rw [h]) else isFalse (fun hh => h (by cases hh; rfl))
  | .ok _, .error _ => isFalse (fun h => nomatch h)
  | .error _, .ok _ => isFalse (fun h => nomatch h)
  | .error e, .error e' =>
      if h : e = e' then isTrue (by rw [h]) else isFalse (fun hh => h (by cases hh; rfl))

/-- A decoded JSON object (Python dict): keys in insertion order. -/
abbrev JObj := List (String × JVal)

/-- `d.get(k)` without default: first binding of `k`, if any. -/
def jget : JObj → String → Option JVal
  | [], _ => none
  | (k', v) :: rest, k => if k' = k then some v else jget rest k

/-- `d.get(k, default)`. -/
def jgetD (o : JObj) (k : String) (d : JVal) : JVal := (jget o k).getD d

/-- `d.get(k)` where a missing key yields Python `None`. -/
def jgetN (o : JObj) (k : String) : JVal := jgetD o k .null

/-- `d[k] = v`: replace in place when the key exists, else append. -/
def jset : JObj → String → JVal → JObj
  | [], k, v => [(k, v)]
  | (k', v') :: rest, k, v =>
      if k' = k then (k, v) :: rest else (k', v') :: jset rest k v

/-- Python truthiness of a JSON value. -/
def truthy : JVal → Bool
  | .null => false
  | .bool b => b
  | .num q => q != 0
  | .str s => s != ""
  | .arr xs => !xs.isEmpty
  | .obj o => !o.isEmpty

/-- Python `a or b`: `a` when truthy, else `b`. -/
def pyOr (a b : JVal) : JVal := if truthy a then a else b

/-- Expect a number (otherwise a Python `TypeError` would follow). -/
def asNum : JVal → Except String ℚ
  | .num q => .ok q
  | _ => .error "TypeError: expected a number"

/-- Expect a dict (otherwise a Python `AttributeError` on `.get`). -/
def asObj : JVal → Except String JObj
  | .obj o => .ok o
  | _ => .error "AttributeError: expected a dict"

/-- Expect a string. -/
def asStr : JVal → Except String String
  | .str s => .ok s
  | _ => .error "TypeError: expected a string"

/-- `d[k]`: raises `KeyError` when the key is missing. -/
def jidx (o : JObj) (k : String) : Except String JVal :=
  match jget o k with
  | some v => .ok v
  | none => .error ("KeyError: " ++ k)

/-! ## `metrics.py` — the Metrics Calculator -/

/-- `Subtask1Metrics` dataclass from `metrics.py`. -/
structure Subtask1Metrics where
  total_tasks : ℚ
  correct_tasks : ℚ
  accuracy : ℚ
  timestamp : String
deriving DecidableEq

/-- `Subtask1Metrics.calculate` from `metrics.py` (lines 21–42); the
`datetime.now().isoformat()` call is the explicit `now` parameter. -/
def Subtask1Metrics.calculate (results : JObj) (now : String) :
    Except String Subtask1Metrics := do
  let total_tasks ← asNum (jgetD results "total_tasks" (.num 0))
  let correct_tasks ← asNum
    (jgetD results "correct_count" (jgetD results "correct_tasks" (.num 0)))
  let accuracy := if total_tasks > 0 then correct_tasks / total_tasks else 0
  .ok ⟨total_tasks, correct_tasks, accuracy, now⟩

/-- `Subtask2Metrics` dataclass from `metrics.py`.  The
`hallucination_rate` field keeps the raw reported JSON value (the
source stores `results.get('hallucination_rate', 1.0 - accuracy)`
without conversion). -/
structure Subtask2Metrics where
  total_cases : ℚ
  correct_cases : ℚ
  accuracy : ℚ
  hallucination_rate : JVal
  timestamp : String
deriving DecidableEq

/-- `Subtask2Metrics.calculate` from `metrics.py` (lines 54–80). -/
def Subtask2Metrics.calculate (results : JObj) (now : String) :
    Except String Subtask2Metrics := do
  let total_cases ← asNum
    (jgetD results "total_cases" (jgetD results "total_tasks" (.num 0)))
  let correct_cases ← asNum
    (jgetD results "correct_answers" (jgetD results "correct_cases" (.num 0)))
  let accuracy := if total_cases > 0 then correct_cases / total_cases else 0
  let hallucination_rate := jgetD results "hallucination_rate" (.num (1 - accuracy))
  .ok ⟨total_cases, correct_cases, accuracy, hallucination_rate, now⟩

/-! ## `metrics.py` — the Ranking Engine

`rank_subtask1`, `rank_subtask2` and `get_overall_ranking` access
`submission["participants"]["medical_agent"]` and the per-record fields
with plain `[...]` indexing, so a missing key is a Python `KeyError`,
modelled by `jidx` returning `.error`.  Fields that feed the sort key
(`accuracy`, `timestamp`, and for subtask2 `hallucination_rate`) are
required to carry their expected JSON type at projection time.
`sorted(..., key=k, reverse=True)` is Python's stable descending sort,
modelled by `List.insertionSort` with the relation `k b ≤ k a`: an
element is inserted after every element with a strictly larger key and
before the first element whose key is `≤` its own, which preserves the
input order of key-equal elements. -/

/-- Expect a list (otherwise iterating / indexing it raises). -/
def asArr : JVal → Except String (List JVal)
  | .arr xs => .ok xs
  | _ => .error "TypeError: expected a list"

/-- One dict appended by `rank_subtask1` (`metrics.py` lines 155–161). -/
structure S1Row where
  participant_id : JVal
  accuracy : ℚ
  correct_tasks : JVal
  total_tasks : JVal
  timestamp : String
deriving DecidableEq

/-- One dict appended by `rank_subtask2` (`metrics.py` lines 184–190). -/
structure S2Row where
  participant_id : JVal
  accuracy : ℚ
  hallucination_rate : ℚ
  total_tasks : JVal
  timestamp : String
deriving DecidableEq

/-- The projection loop of `rank_subtask1` over one submission's
`results` list. -/
def collectRows1 (pid : JVal) : List JVal → Except String (List S1Row)
  | [] => .ok []
  | r :: rs => do
      let ro ← asObj r
      let st ← jidx ro "subtask"
      if st = .str "subtask1" then do
        let acc ← asNum (← jidx ro "accuracy")
        let ct ← jidx ro "correct_tasks"
        let tt ← jidx ro "total_tasks"
        let ts ← asStr (← jidx ro "timestamp")
        let more ← collectRows1 pid rs
        .ok (⟨pid, acc, ct, tt, ts⟩ :: more)
      else do
        let more ← collectRows1 pid rs
        .ok more

/-- The projection loop of `rank_subtask2` over one submission's
`results` list. -/
def collectRows2 (pid : JVal) : List JVal → Except String (List S2Row)
  | [] => .ok []
  | r :: rs => do
      let ro ← asObj r
      let st ← jidx ro "subtask"
      if st = .str "subtask2" then do
        let acc ← asNum (← jidx ro "accuracy")
        let hall ← asNum (← jidx ro "hallucination_rate")
        let tt ← jidx ro "total_tasks"
        let ts ← asStr (← jidx ro "timestamp")
        let more ← collectRows2 pid rs
        .ok (⟨pid, acc, hall, tt, ts⟩ :: more)
      else do
        let more ← collectRows2 pid rs
        .ok more

/-- `submission["participants"]["medical_agent"]`. -/
def pidOfSubmission (s : JVal) : Except String JVal := do
  let so ← asObj s
  let parts ← asObj (← jidx so "participants")
  jidx parts "medical_agent"

/-- The `subtask1_results` list built by `rank_subtask1` before sorting. -/
def collect_subtask1 : List JVal → Except String (List S1Row)
  | [] => .ok []
  | sub :: rest => do
      let pid ← pidOfSubmission sub
      let so ← asObj sub
      let rl ← asArr (← jidx so "results")
      let rows ← collectRows1 pid rl
      let more ← collect_subtask1 rest
      .ok (rows ++ more)

/-- The `subtask2_results` list built by `rank_subtask2` before sorting. -/
def collect_subtask2 : List JVal → Except String (List S2Row)
  | [] => .ok []
  | sub :: rest => do
      let pid ← pidOfSubmission sub
      let so ← asObj sub
      let rl ← asArr (← jidx so "results")
      let rows ← collectRows2 pid rl
      let more ← collect_subtask2 rest
      .ok (rows ++ more)

/-- Sort key of `rank_subtask1`: `(x["accuracy"], x["timestamp"])`. -/
def s1Key (r : S1Row) : Lex (ℚ × String) := toLex (r.accuracy, r.timestamp)

/-- `sorted(..., reverse=True)` order for `rank_subtask1`. -/
def s1Rel (a b : S1Row) : Prop := s1Key b ≤ s1Key a

instance : DecidableRel s1Rel := fun a b => inferInstanceAs (Decidable (s1Key b ≤ s1Key a))

instance : IsTotal S1Row s1Rel := ⟨fun a b => le_total (s1Key b) (s1Key a)⟩

instance : IsTrans S1Row s1Rel := ⟨fun _ _ _ hab hbc => le_trans hbc hab⟩

/-- Sort key of `rank_subtask2`:
`(x["accuracy"], -x["hallucination_rate"], x["timestamp"])`. -/
def s2Key (r : S2Row) : Lex (ℚ × Lex (ℚ × String)) :=
  toLex (r.accuracy, toLex (-r.hallucination_rate, r.timestamp))

/-- `sorted(..., reverse=True)` order for `rank_subtask2`. -/
def s2Rel (a b : S2Row) : Prop := s2Key b ≤ s2Key a

instance : DecidableRel s2Rel := fun a b => inferInstanceAs (Decidable (s2Key b ≤ s2Key a))

instance : IsTotal S2Row s2Rel := ⟨fun a b => le_total (s2Key b) (s2Key a)⟩

instance : IsTrans S2Row s2Rel := ⟨fun _ _ _ hab hbc => le_trans hbc hab⟩

/-- `rank_subtask1` from `metrics.py` (lines 142–168). -/
def rank_subtask1 (submissions : List JVal) : Except String (List S1Row) :=
  (collect_subtask1 submissions).map (List.insertionSort s1Rel)

/-- `rank_subtask2` from `metrics.py` (lines 171–197). -/
def rank_subtask2 (submissions : List JVal) : Except String (List S2Row) :=
  (collect_subtask2 submissions).map (List.insertionSort s2Rel)

/-- Per-participant accumulator of `get_overall_ranking`. -/
structure PStats where
  accuracies : List ℚ
  submissions : ℕ
  latest_timestamp : String
deriving DecidableEq

/-- One dict of the final `ranking` list of `get_overall_ranking`. -/
structure OverallRow where
  participant_id : JVal
  avg_accuracy : ℚ
  submissions : ℕ
  latest_timestamp : String
deriving DecidableEq

/-- Lookup in the `participant_stats` dict. -/
def statsGet : List (JVal × PStats) → JVal → Option PStats
  | [], _ => none
  | (p', st) :: rest, p => if p' = p then some st else statsGet rest p

/-- `participant_stats[pid] = st`: replace in place, else append
(Python dict keeps first-insertion position). -/
def statsSet : List (JVal × PStats) → JVal → PStats → List (JVal × PStats)
  | [], p, st => [(p, st)]
  | (p', st') :: rest, p, st =>
      if p' = p then (p, st) :: rest else (p', st') :: statsSet rest p st

/-- `if timestamp > stats["latest_timestamp"]` update: keep the
lexicographically greater string. -/
def maxTS (old new : String) : String := if old < new then new else old

/-- The inner `for result in submission["results"]` loop of
`get_overall_ranking`: append each accuracy, track the latest
(lexicographically greatest) timestamp. -/
def updateResults (st : PStats) : List JVal → Except String PStats
  | [] => .ok st
  | r :: rs => do
      let ro ← asObj r
      let acc ← asNum (← jidx ro "accuracy")
      let ts ← asStr (← jidx ro "timestamp")
      updateResults
        { st with
          accuracies := st.accuracies ++ [acc],
          latest_timestamp := maxTS st.latest_timestamp ts } rs

/-- The outer submission loop of `get_overall_ranking`: create the
participant's entry on first sight, count every submission, then fold
its results. -/
def overallLoop (stats : List (JVal × PStats)) :
    List JVal → Except String (List (JVal × PStats))
  | [] => .ok stats
  | sub :: rest => do
      let pid ← pidOfSubmission sub
      let so ← asObj sub
      let st0 := (statsGet stats pid).getD ⟨[], 0, ""⟩
      let st1 := { st0 with submissions := st0.submissions + 1 }
      let rl ← asArr (← jidx so "results")
      let st2 ← updateResults st1 rl
      overallLoop (statsSet stats pid st2) rest

/-- Average used by `get_overall_ranking`: `sum/len` when the list is
non-empty (truthy), else `0.0`. -/
def avgAccuracy (accs : List ℚ) : ℚ :=
  if accs.isEmpty then 0 else accs.sum / accs.length

/-- `sorted(ranking, key=avg_accuracy, reverse=True)` order. -/
def ovRel (a b : OverallRow) : Prop := b.avg_accuracy ≤ a.avg_accuracy

instance : DecidableRel ovRel := fun a b => inferInstanceAs (Decidable (b.avg_accuracy ≤ a.avg_accuracy))

instance : IsTotal OverallRow ovRel := ⟨fun a b => le_total b.avg_accuracy a.avg_accuracy⟩

instance : IsTrans OverallRow ovRel := ⟨fun _ _ _ hab hbc => le_trans hbc hab⟩

/-- `get_overall_ranking` from `metrics.py` (lines 200–244). -/
def get_overall_ranking (submissions : List JVal) : Except String (List OverallRow) := do
  let stats ← overallLoop [] submissions
  let ranking := stats.map (fun e =>
    (⟨e.1, avgAccuracy e.2.accuracies, e.2.submissions, e.2.latest_timestamp⟩ : OverallRow))
  .ok (List.insertionSort ovRel ranking)

/-- Submission count recorded for `p` in the accumulator. -/
def subCountAt (stats : List (JVal × PStats)) (p : JVal) : ℕ :=
  match statsGet stats p with
  | some st => st.submissions
  | none => 0

/-- Accuracies recorded for `p` in the accumulator. -/
def accsAt (stats : List (JVal × PStats)) (p : JVal) : List ℚ :=
  match statsGet stats p with
  | some st => st.accuracies
  | none => []


/-! ## `results_format_adapter.py` — the Format Normalizer

`get_participant_id_from_scenario` reads `scenario.toml` from the
working directory; the file system is the explicit parameter
`fs : Option JObj` (`none` = no file, `some o` = its parsed content).
`datetime.now().isoformat()` is the explicit `now` parameter.  Python
degenerate iterables (an empty string or dict where a list is
expected) are modelled as type errors; every claim below stays inside
list-shaped data, where the model matches the source exactly. -/

/-- `cs` starts with `pat` (character lists). -/
def charsStartWith : List Char → List Char → Bool
  | _, [] => true
  | [], _ :: _ => false
  | c :: cs, d :: ds => c = d && charsStartWith cs ds

/-- `pat` occurs somewhere in `cs` (character lists). -/
def charsContain : List Char → List Char → Bool
  | [], pat => pat.isEmpty
  | c :: cs, pat => charsStartWith (c :: cs) pat || charsContain cs pat

/-- Python `s.startswith(pat)`. -/
def strStartsWith (s pat : String) : Bool := charsStartWith s.data pat.data

/-- Python `pat in s` on strings (substring test). -/
def strContains (s pat : String) : Bool := charsContain s.data pat.data

/-- Python `s.lower()` (ASCII lowering, as used on the tag strings). -/
def strLower (s : String) : String := ⟨s.data.map Char.toLower⟩

/-- The `sum(1 for task_result in task_results.values() if not
task_result.get("failure_type"))` count from
`extract_leaderboard_metrics`. -/
def countCorrectTasks : List (String × JVal) → Except String ℕ
  | [] => .ok 0
  | (_, v) :: rest => do
      let o ← asObj v
      let n ← countCorrectTasks rest
      if truthy (jgetN o "failure_type") then .ok n else .ok (n + 1)

/-- `extract_leaderboard_metrics` from `results_format_adapter.py`
(lines 15–97).  The `subtask` argument is compared against the two
string tags; anything else falls into the `ValueError` branch. -/
def extract_leaderboard_metrics (result_data : JObj) (subtask : JVal) :
    Except String JObj :=
  if subtask = .str "subtask1" then do
    let score ← asNum (jgetD result_data "score" (.num 0))
    let reportV := pyOr (jgetN result_data "report") (.obj [])
    let success_rate ←
      match reportV with
      | .obj ro => asNum (jgetD ro "success_rate" (.num 0))
      | _ => .ok 0
    if score > 0 ∨ success_rate > 0 then
      .ok [("score", .num score), ("success_rate", .num success_rate)]
    else
      let biV := jgetD result_data "batch_info" (.obj [])
      if truthy biV then do
        let bi ← asObj biV
        let total_tasks ← asNum (jgetD bi "total_tasks" (.num 0))
        let correct_tasks ← asNum (jgetD bi "correct_tasks" (.num 0))
        if total_tasks > 0 then
          .ok [("score", .num (correct_tasks / total_tasks)),
               ("success_rate", .num (correct_tasks / total_tasks))]
        else
          let trV := jgetD bi "task_results" (.obj [])
          if truthy trV then do
            let tr ← asObj trV
            let correct ← countCorrectTasks tr
            if (tr.length : ℚ) > 0 then
              .ok [("score", .num ((correct : ℚ) / (tr.length : ℚ))),
                   ("success_rate", .num ((correct : ℚ) / (tr.length : ℚ)))]
            else
              .ok [("score", .num 0), ("success_rate", .num 0)]
          else
            .ok [("score", .num 0), ("success_rate", .num 0)]
      else
        .ok [("score", .num 0), ("success_rate", .num 0)]
  else if subtask = .str "subtask2" then do
    let accuracy ← asNum (jgetD result_data "accuracy" (.num 0))
    let hallucination_rate ← asNum (jgetD result_data "hallucination_rate" (.num 0))
    if accuracy > 0 ∨ hallucination_rate > 0 then
      .ok [("accuracy", .num accuracy), ("hallucination_rate", .num hallucination_rate)]
    else
      .ok [("accuracy", .num 0), ("hallucination_rate", .num 0)]
  else
    .error "ValueError: Unknown subtask"

/-- `get_participant_id_from_scenario` from `results_format_adapter.py`
(lines 196–216): no file or no participants section gives `"unknown"`,
else the first participant's `agentbeats_id`, or its `name`, or
`"unknown"`. -/
def get_participant_id_from_scenario (fs : Option JObj) : Except String JVal :=
  match fs with
  | none => .ok (.str "unknown")
  | some scenario =>
      let participantsV := jgetD scenario "participants" (.arr [])
      if truthy participantsV then do
        let ps ← asArr participantsV
        match ps with
        | p :: _ => do
            let po ← asObj p
            .ok (pyOr (jgetN po "agentbeats_id") (jgetD po "name" (.str "unknown")))
        | [] => .ok (.str "unknown")
      else .ok (.str "unknown")

/-- Participant-id step of `transform_pharmagent_results` (lines
250–253): the record's own `participant_id` unless falsy or
`"unknown"`, else the scenario lookup. -/
def resolveParticipantId (p : JObj) (fs : Option JObj) : Except String JVal :=
  let pidV := jgetN p "participant_id"
  if !truthy pidV || pidV = .str "unknown" then get_participant_id_from_scenario fs
  else .ok pidV

/-- Timestamp step of `transform_pharmagent_results` (lines 255–269):
`result_data` value, else top-level value, else the current time; a
truthy value must be a string (`.endswith` would raise otherwise), and
the ISO-format check block leaves it unchanged. -/
def resolveTimestamp (rd p : JObj) (now : String) : Except String JVal :=
  let tsV := pyOr (jgetN rd "timestamp") (pyOr (jgetN p "timestamp") (.str ""))
  if truthy tsV then (asStr tsV).map JVal.str else .ok (JVal.str now)

/-- `{**base, **extra}`: merged keys keep their first position, the
later value wins. -/
def objMerge (base extra : JObj) : JObj :=
  extra.foldl (fun acc kv => jset acc kv.1 kv.2) base

/-- `transform_pharmagent_results` from `results_format_adapter.py`
(lines 219–280). -/
def transform_pharmagent_results (p : JObj) (fs : Option JObj) (now : String) :
    Except String JObj := do
  let configV := jgetD p "config" (.obj [])
  let rd ← asObj (jgetD p "result_data" (.obj []))
  -- subtask = result_data.get("subtask") or config.get("subtask")
  let subtaskRaw ←
    if truthy (jgetN rd "subtask") then .ok (jgetN rd "subtask")
    else do
      let cfg ← asObj configV
      .ok (jgetN cfg "subtask")
  -- infer from task_id when still falsy
  let subtask ←
    if truthy subtaskRaw then .ok subtaskRaw
    else do
      let task_idV := pyOr (jgetN rd "task_id") (.str "")
      let task_id_str ←
        if truthy task_idV then (asStr task_idV).map strLower else .ok ""
      if strStartsWith task_id_str "subtask2" || strContains task_id_str "pokemon" then
        .ok (JVal.str "subtask2")
      else if strStartsWith task_id_str "task" || strContains task_id_str "batch" then
        .ok (JVal.str "subtask1")
      else
        .ok (JVal.str "subtask1")
  let metrics ← extract_leaderboard_metrics rd subtask
  let participant_id ← resolveParticipantId p fs
  let timestamp ← resolveTimestamp rd p now
  .ok (objMerge
    [("subtask", subtask), ("participant_id", participant_id),
     ("timestamp", timestamp), ("config", configV)] metrics)

/-- Case 2 of `transform_agentbeats_results`: handling of
`results[0]`.  For a dict both the `result_data` branch and the
`isinstance(..., dict)` branch set `participant_id` (when one was
extracted) and call `transform_pharmagent_results`; any other type
either is returned unchanged or raises. -/
def transformResultItem (item : JVal) (pidOpt : JVal) (fs : Option JObj)
    (now : String) : Except String JVal :=
  match item with
  | .obj o =>
      let o' := if truthy pidOpt then jset o "participant_id" pidOpt else o
      (transform_pharmagent_results o' fs now).map .obj
  | .str s =>
      if strContains s "result_data" then
        .error "TypeError: str does not support item assignment"
      else .ok (.str s)
  | .arr xs =>
      if JVal.str "result_data" ∈ xs then
        .error "TypeError: list indices must be integers"
      else .ok (.arr xs)
  | _ => .error "TypeError: argument is not iterable"

/-- Inner `for part in parts` loop of the A2A-artifact case: the first
part with `kind == "data"` and truthy `data`. -/
def findDataPart : List JVal → Except String (Option JObj)
  | [] => .ok none
  | part :: rest => do
      let po ← asObj part
      if jgetN po "kind" = .str "data" then
        let dataV := jgetD po "data" (.obj [])
        if truthy dataV then do
          let dobj ← asObj dataV
          .ok (some dobj)
        else findDataPart rest
      else findDataPart rest

/-- Outer `for artifact in agentbeats_results["artifacts"]` loop: scan
artifacts named `"Evaluation Result"` for a data part. -/
def findEvalData : List JVal → Except String (Option JObj)
  | [] => .ok none
  | art :: rest => do
      let ao ← asObj art
      if jgetN ao "name" = .str "Evaluation Result" then do
        let parts ← asArr (jgetD ao "parts" (.arr []))
        match ← findDataPart parts with
        | some dobj => .ok (some dobj)
        | none => findEvalData rest
      else findEvalData rest

/-- Case 4 and the default case of `transform_agentbeats_results`. -/
def transformAgentbeatsCase4 (a : JObj) (participantsV pidOpt : JVal)
    (fs : Option JObj) (now : String) : Except String JObj :=
  if (jget a "result_data").isSome then
    let a' := if truthy pidOpt then jset a "participant_id" pidOpt else a
    (transform_pharmagent_results a' fs now).map
      (fun t => [("participants", participantsV), ("results", .arr [.obj t])])
  else
    let a' := if truthy pidOpt ∧ jget a "participant_id" = none
              then jset a "participant_id" pidOpt else a
    .ok [("participants", participantsV), ("results", .arr [.obj a'])]

/-- Case 3 of `transform_agentbeats_results`: A2A artifacts. -/
def transformAgentbeatsCase3 (a : JObj) (participantsV pidOpt : JVal)
    (fs : Option JObj) (now : String) : Except String JObj :=
  match jget a "artifacts" with
  | some av => do
      let arts ← asArr av
      match ← findEvalData arts with
      | some dobj => do
          let d' := if truthy pidOpt then jset dobj "participant_id" pidOpt else dobj
          let transformed ← transform_pharmagent_results d' fs now
          .ok [("participants", participantsV), ("results", .arr [.obj transformed])]
      | none => transformAgentbeatsCase4 a participantsV pidOpt fs now
  | none => transformAgentbeatsCase4 a participantsV pidOpt fs now

/-- `list(participants.values())[0] if participants else None`: the
first value of the sibling `participants` mapping, `None` (here
`.null`) when the mapping is absent, empty or not a dict. -/
def firstParticipantValue (a : JObj) : JVal :=
  match jget a "participants" with
  | some (.obj (kv :: _)) => kv.2
  | _ => .null

/-- `transform_agentbeats_results` from `results_format_adapter.py`
(lines 100–193): the four-case format-detection cascade. -/
def transform_agentbeats_results (a : JObj) (fs : Option JObj) (now : String) :
    Except String JObj :=
  let participantsV := jgetD a "participants" (.obj [])
  let pidOpt : JVal := firstParticipantValue a
  if (jget a "subtask").isSome ∧ (jget a "participant_id").isSome then
    -- Case 1: already-canonical document
    let result := if truthy pidOpt ∧ ¬truthy (jgetN a "participant_id")
                  then jset a "participant_id" pidOpt else a
    .ok [("participants", participantsV), ("results", .arr [.obj result])]
  else
    match jget a "results" with
    | some (.arr (r :: _)) =>
        -- Case 2: non-empty results array, only the head is processed
        (transformResultItem r pidOpt fs now).map
          (fun transformed =>
            [("participants", participantsV), ("results", .arr [transformed])])
    | _ => transformAgentbeatsCase3 a participantsV pidOpt fs now

/-- A result record carrying every field the three ranking functions
index into, with the sort-key fields at their expected types. -/
def WFResult (v : JVal) : Prop :=
  ∃ ro, v = .obj ro
    ∧ (∃ st, jget ro "subtask" = some st)
    ∧ (∃ q, jget ro "accuracy" = some (.num q))
    ∧ (∃ ts, jget ro "timestamp" = some (.str ts))
    ∧ (∃ ct, jget ro "correct_tasks" = some ct)
    ∧ (∃ tt, jget ro "total_tasks" = some tt)
    ∧ (∃ h, jget ro "hallucination_rate" = some (.num h))

/-- A submission carrying `participants["medical_agent"]` and a
`results` list of well-formed records. -/
def WFSubmission (s : JVal) : Prop :=
  ∃ so po, s = .obj so
    ∧ jget so "participants" = some (.obj po)
    ∧ (∃ pid, jget po "medical_agent" = some pid)
    ∧ (∃ rs, jget so "results" = some (.arr rs) ∧ ∀ r ∈ rs, WFResult r)

theorem collectRows1_ok (pid : JVal) :
    ∀ rs : List JVal, (∀ r ∈ rs, WFResult r) → ∃ out, collectRows1 pid rs = .ok out := by
  intro rs
  induction rs with
  | nil => intro _; exact ⟨[], rfl⟩
  | cons r rs ih =>
    intro h
    obtain ⟨ro, hro, ⟨st, hst⟩, ⟨q, hacc⟩, ⟨ts, hts⟩, ⟨ct, hct⟩, ⟨tt, htt⟩, ⟨hr, hhall⟩⟩ :=
      h r (List.mem_cons_self r rs)
    subst hro
    obtain ⟨out, hout⟩ := ih (fun r' hr' => h r' (List.mem_cons_of_mem _ hr'))
    by_cases hcase : st = JVal.str "subtask1"
    · exact ⟨⟨pid, q, ct, tt, ts⟩ :: out, by simp [collectRows1, asObj, jidx, asNum,
        asStr, hst, hacc, hts, hct, htt, hcase, hout, bind, Except.bind]⟩
    · exact ⟨out, by simp [collectRows1, asObj, jidx, hst, hcase, hout, bind, Except.bind]⟩

theorem collectRows2_ok (pid : JVal) :
    ∀ rs : List JVal, (∀ r ∈ rs, WFResult r) → ∃ out, collectRows2 pid rs = .ok out := by
  intro rs
  induction rs with
  | nil => intro _; exact ⟨[], rfl⟩
  | cons r rs ih =>
    intro h
    obtain ⟨ro, hro, ⟨st, hst⟩, ⟨q, hacc⟩, ⟨ts, hts⟩, ⟨ct, hct⟩, ⟨tt, htt⟩, ⟨hr, hhall⟩⟩ :=
      h r (List.mem_cons_self r rs)
    subst hro
    obtain ⟨out, hout⟩ := ih (fun r' hr' => h r' (List.mem_cons_of_mem _ hr'))
    by_cases hcase : st = JVal.str "subtask2"
    · exact ⟨⟨pid, q, hr, tt, ts⟩ :: out, by simp [collectRows2, asObj, jidx, asNum,
        asStr, hst, hacc, hts, hct, htt, hhall, hcase, hout, bind, Except.bind]⟩
    · exact ⟨out, by simp [collectRows2, asObj, jidx, hst, hcase, hout, bind, Except.bind]⟩

theorem collect_subtask1_ok :
    ∀ subs : List JVal, (∀ s ∈ subs, WFSubmission s) →
      ∃ out, collect_subtask1 subs = .ok out := by
  intro subs
  induction subs with
  | nil => intro _; exact ⟨[], rfl⟩
  | cons sub rest ih =>
    intro h
    obtain ⟨so, po, rfl, hparts, ⟨pid, hpid⟩, ⟨rs, hrs, hwf⟩⟩ :=
      h _ (List.mem_cons_self _ rest)
    obtain ⟨rows, hrows⟩ := collectRows1_ok pid rs hwf
    obtain ⟨more, hmore⟩ := ih (fun s' hs' => h s' (List.mem_cons_of_mem _ hs'))
    exact ⟨rows ++ more, by simp [collect_subtask1, pidOfSubmission, asObj, asArr,
      jidx, hparts, hpid, hrs, hrows, hmore, bind, Except.bind]⟩

theorem collect_subtask2_ok :
    ∀ subs : List JVal, (∀ s ∈ subs, WFSubmission s) →
      ∃ out, collect_subtask2 subs = .ok out := by
  intro subs
  induction subs with
  | nil => intro _; exact ⟨[], rfl⟩
  | cons sub rest ih =>
    intro h
    obtain ⟨so, po, rfl, hparts, ⟨pid, hpid⟩, ⟨rs, hrs, hwf⟩⟩ :=
      h _ (List.mem_cons_self _ rest)
    obtain ⟨rows, hrows⟩ := collectRows2_ok pid rs hwf
    obtain ⟨more, hmore⟩ := ih (fun s' hs' => h s' (List.mem_cons_of_mem _ hs'))
    exact ⟨rows ++ more, by simp [collect_subtask2, pidOfSubmission, asObj, asArr,
      jidx, hparts, hpid, hrs, hrows, hmore, bind, Except.bind]⟩

theorem updateResults_ok :
    ∀ (rl : List JVal) (st : PStats), (∀ r ∈ rl, WFResult r) →
      ∃ st', updateResults st rl = .ok st' := by
  intro rl
  induction rl with
  | nil => intro st _; exact ⟨st, rfl⟩
  | cons r rs ih =>
    intro st h
    obtain ⟨ro, hro, _, ⟨q, hacc⟩, ⟨ts, hts⟩, _, _, _⟩ := h r (List.mem_cons_self r rs)
    subst hro
    obtain ⟨st', hst'⟩ := ih
      { st with
        accuracies := st.accuracies ++ [q],
        latest_timestamp := maxTS st.latest_timestamp ts }
      (fun r' hr' => h r' (List.mem_cons_of_mem _ hr'))
    exact ⟨st', by simp [updateResults, asObj, asNum, asStr, jidx, hacc, hts, hst',
      bind, Except.bind]⟩

theorem overallLoop_ok :
    ∀ (subs : List JVal) (stats : List (JVal × PStats)),
      (∀ s ∈ subs, WFSubmission s) → ∃ stats', overallLoop stats subs = .ok stats' := by
  intro subs
  induction subs with
  | nil => intro stats _; exact ⟨stats, rfl⟩
  | cons sub rest ih =>
    intro stats h
    obtain ⟨so, po, rfl, hparts, ⟨pid, hpid⟩, ⟨rs, hrs, hwf⟩⟩ :=
      h _ (List.mem_cons_self _ rest)
    obtain ⟨st2, hst2⟩ := updateResults_ok rs
      { (statsGet stats pid).getD ⟨[], 0, ""⟩ with
        submissions := ((statsGet stats pid).getD ⟨[], 0, ""⟩).submissions + 1 } hwf
    obtain ⟨stats', hstats'⟩ := ih (statsSet stats pid st2)
      (fun s' hs' => h s' (List.mem_cons_of_mem _ hs'))
    exact ⟨stats', by simp [overallLoop, pidOfSubmission, asObj, asArr, jidx,
      hparts, hpid, hrs, hst2, hstats', bind, Except.bind]⟩

/-- C3 counterexample: the ranking functions do not default missing
keys — a submission without `participants["medical_agent"]` (or a
record without `accuracy`) raises `KeyError` and aborts the whole
computation. -/
theorem rank_missing_keys_cex :
    rank_subtask1 [.obj [("participants", .obj []), ("results", .arr [])]]
        = .error "KeyError: medical_agent"
    ∧ rank_subtask2 [.obj [("participants", .obj []), ("results", .arr [])]]
        = .error "KeyError: medical_agent"
    ∧ get_overall_ranking [.obj [("participants", .obj []), ("results", .arr [])]]
        = .error "KeyError: medical_agent"
    ∧ rank_subtask1 [.obj [("participants", .obj [("medical_agent", .str "p")]),
        ("results", .arr [.obj [("subtask", .str "subtask1")]])]]
        = .error "KeyError: accuracy" := by
  refine ⟨by decide, by decide, by decide, by decide⟩

/-- C3 amended: `rank_subtask1`, `rank_subtask2` and
`get_overall_ranking` raise `KeyError` on missing required keys rather
than defaulting them; they are total (return a ranking) exactly on
submissions that carry `participants["medical_agent"]` and whose
records carry the indexed fields with sort-key fields well-typed. -/
theorem rank_missing_keys_amended :
    ∀ subs : List JVal, (∀ s ∈ subs, WFSubmission s) →
      (∃ r1, rank_subtask1 subs = .ok r1)
      ∧ (∃ r2, rank_subtask2 subs = .ok r2)
      ∧ (∃ ro, get_overall_ranking subs = .ok ro) := by
  intro subs h
  obtain ⟨o1, h1⟩ := collect_subtask1_ok subs h
  obtain ⟨o2, h2⟩ := collect_subtask2_ok subs h
  obtain ⟨st, h3⟩ := overallLoop_ok subs [] h
  exact ⟨⟨List.insertionSort s1Rel o1, by simp [rank_subtask1, h1, Except.map]⟩,
    ⟨List.insertionSort s2Rel o2, by simp [rank_subtask2, h2, Except.map]⟩,
    ⟨List.insertionSort ovRel (st.map fun e =>
        ⟨e.1, avgAccuracy e.2.accuracies, e.2.submissions, e.2.latest_timestamp⟩),
      by simp [get_overall_ranking, h3, bind, Except.bind]⟩⟩

theorem rank_missing_keys_amended_witness :
    (∃ r1, rank_subtask1 [.obj [("participants", .obj [("medical_agent", .str "p")]),
        ("results", .arr [.obj [("subtask", .str "subtask1"), ("accuracy", .num 1),
          ("timestamp", .str "T"), ("correct_tasks", .num 1), ("total_tasks", .num 1),
          ("hallucination_rate", .num 0)]])]] = .ok r1)
    ∧ (∃ r2, rank_subtask2 [.obj [("participants", .obj [("medical_agent", .str "p")]),
        ("results", .arr [.obj [("subtask", .str "subtask1"), ("accuracy", .num 1),
          ("timestamp", .str "T"), ("correct_tasks", .num 1), ("total_tasks", .num 1),
          ("hallucination_rate", .num 0)]])]] = .ok r2)
    ∧ (∃ ro, get_overall_ranking [.obj [("participants", .obj [("medical_agent", .str "p")]),
        ("results", .arr [.obj [("subtask", .str "subtask1"), ("accuracy", .num 1),
          ("timestamp", .str "T"), ("correct_tasks", .num 1), ("total_tasks", .num 1),
          ("hallucination_rate", .num 0)]])]] = .ok ro) :=
  rank_missing_keys_amended _ (by
    intro s hs
    simp only [List.mem_singleton] at hs
    subst hs
    refine ⟨_, _, rfl, rfl, ⟨.str "p", rfl⟩, ⟨_, rfl, ?_⟩⟩
    intro r hr
    simp only [List.mem_singleton] at hr
    subst hr
    exact ⟨_, rfl, ⟨.str "subtask1", rfl⟩, ⟨1, rfl⟩, ⟨"T", rfl⟩, ⟨.num 1, rfl⟩,
      ⟨.num 1, rfl⟩, ⟨0, rfl⟩⟩)

/-- Inserting into a sorted prefix does not disturb the elements
selected by a predicate `p` all of whose members are mutually related
(key-equal elements in a stable sort). -/
theorem filter_orderedInsert {α : Type} (r : α → α → Prop) [DecidableRel r] (p : α → Bool)
    (hcomp : ∀ x y, p x = true → p y = true → r x y) (x : α) :
    ∀ s : List α,
      (s.orderedInsert r x).filter p = if p x then x :: s.filter p else s.filter p := by
  intro s
  induction s with
  | nil => by_cases hx : p x <;> simp [List.orderedInsert, List.filter, hx]
  | cons y s ih =>
    by_cases hr : r x y
    · rw [List.orderedInsert, if_pos hr]
      by_cases hx : p x <;> by_cases hy : p y <;> simp [List.filter_cons, hx, hy]
    · rw [List.orderedInsert, if_neg hr]
      by_cases hx : p x <;> by_cases hy : p y
      · exact absurd (hcomp x y hx hy) hr
      · simp [List.filter_cons, hx, hy, ih]
      · simp [List.filter_cons, hx, hy, ih]
      · simp [List.filter_cons, hx, hy, ih]

/-- The stable sort `insertionSort` keeps the relative order (in fact
the exact sublist) of the elements selected by a predicate whose
members are mutually related — in particular of key-equal elements. -/
theorem filter_insertionSort {α : Type} (r : α → α → Prop) [DecidableRel r] (p : α → Bool)
    (hcomp : ∀ x y, p x = true → p y = true → r x y) :
    ∀ l : List α, (l.insertionSort r).filter p = l.filter p := by
  intro l
  induction l with
  | nil => rfl
  | cons x l ih =>
    rw [List.insertionSort, filter_orderedInsert r p hcomp x _]
    by_cases hx : p x <;> simp [List.filter_cons, hx, ih]

/-- Unpacking the descending lexicographic order of `rank_subtask2`'s
sort key `(accuracy, -hallucination_rate, timestamp)`. -/
theorem s2Rel_imp {a b : S2Row} (h : s2Rel a b) :
    b.accuracy ≤ a.accuracy
    ∧ (a.accuracy = b.accuracy → a.hallucination_rate ≤ b.hallucination_rate)
    ∧ (a.accuracy = b.accuracy → a.hallucination_rate = b.hallucination_rate →
        b.timestamp ≤ a.timestamp) := by
  unfold s2Rel s2Key at h
  rw [Prod.Lex.le_iff] at h
  rcases h with hlt | ⟨heq, hrest⟩
  · refine ⟨le_of_lt hlt, fun hacc => ?_, fun hacc _ => ?_⟩
    · rw [hacc] at hlt; exact absurd hlt (lt_irrefl _)
    · rw [hacc] at hlt; exact absurd hlt (lt_irrefl _)
  · rw [Prod.Lex.le_iff] at hrest
    rcases hrest with hlt2 | ⟨heq2, hts⟩
    · have hh : a.hallucination_rate < b.hallucination_rate := by
        have := neg_lt_neg_iff.mp hlt2
        exact this
      refine ⟨le_of_eq heq, fun _ => le_of_lt hh, fun _ hhe => ?_⟩
      rw [hhe] at hh; exact absurd hh (lt_irrefl _)
    · have hh : b.hallucination_rate = a.hallucination_rate := neg_inj.mp heq2
      exact ⟨le_of_eq heq, fun _ => le_of_eq hh.symm, fun _ _ => hts⟩

/-- C4: the output of `rank_subtask2` is non-increasing in `accuracy`;
among equal accuracies non-decreasing in `hallucination_rate`; among
records equal in both, non-increasing in `timestamp`; and records with
a fully equal sort key keep the relative order they had in the
projected (pre-sort) list — the sort is stable. -/
theorem rank_subtask2_order :
    ∀ (subs : List JVal) (raw rows : List S2Row),
      collect_subtask2 subs = .ok raw → rank_subtask2 subs = .ok rows →
        rows.Pairwise (fun a b =>
          b.accuracy ≤ a.accuracy
          ∧ (a.accuracy = b.accuracy → a.hallucination_rate ≤ b.hallucination_rate)
          ∧ (a.accuracy = b.accuracy → a.hallucination_rate = b.hallucination_rate →
              b.timestamp ≤ a.timestamp))
        ∧ ∀ key : ℚ × ℚ × String,
            (rows.filter fun r =>
              decide (r.accuracy = key.1 ∧ r.hallucination_rate = key.2.1
                ∧ r.timestamp = key.2.2))
            = raw.filter fun r =>
              decide (r.accuracy = key.1 ∧ r.hallucination_rate = key.2.1
                ∧ r.timestamp = key.2.2) := by
  intro subs raw rows h1 h2
  rw [rank_subtask2, h1] at h2
  simp only [Except.map, Except.ok.injEq] at h2
  subst h2
  constructor
  · exact (List.sorted_insertionSort s2Rel raw).imp (fun hab => s2Rel_imp hab)
  · intro key
    refine filter_insertionSort s2Rel _ ?_ raw
    intro x y hx hy
    simp only [decide_eq_true_eq] at hx hy
    obtain ⟨hx1, hx2, hx3⟩ := hx
    obtain ⟨hy1, hy2, hy3⟩ := hy
    show s2Key y ≤ s2Key x
    unfold s2Key
    rw [hx1, hx2, hx3, hy1, hy2, hy3]

theorem rank_subtask2_order_witness :
    ([(⟨.str "p", 1, 0, .num 1, "T"⟩ : S2Row)]).Pairwise (fun a b =>
        b.accuracy ≤ a.accuracy
        ∧ (a.accuracy = b.accuracy → a.hallucination_rate ≤ b.hallucination_rate)
        ∧ (a.accuracy = b.accuracy → a.hallucination_rate = b.hallucination_rate →
            b.timestamp ≤ a.timestamp)) :=
  (rank_subtask2_order
    [.obj [("participants", .obj [("medical_agent", .str "p")]),
      ("results", .arr [.obj [("subtask", .str "subtask2"), ("accuracy", .num 1),
        ("hallucination_rate", .num 0), ("total_tasks", .num 1),
        ("timestamp", .str "T")]])]]
    [⟨.str "p", 1, 0, .num 1, "T"⟩] [⟨.str "p", 1, 0, .num 1, "T"⟩]
    (by decide) (by decide)).1

/-! ### Invariants of `get_overall_ranking`'s accumulator -/

theorem statsGet_statsSet_self (l : List (JVal × PStats)) (p : JVal) (st : PStats) :
    statsGet (statsSet l p st) p = some st := by
  induction l with
  | nil => simp [statsGet, statsSet]
  | cons e rest ih =>
    by_cases h : e.1 = p
    · simp [statsGet, statsSet, h]
    · simp [statsGet, statsSet, h, ih]

theorem statsGet_statsSet_ne (l : List (JVal × PStats)) (p q : JVal) (st : PStats)
    (h : q ≠ p) : statsGet (statsSet l p st) q = statsGet l q := by
  have h' : ¬p = q := fun hh => h hh.symm
  induction l with
  | nil => simp [statsGet, statsSet, h']
  | cons e rest ih =>
    by_cases he : e.1 = p
    · simp [statsGet, statsSet, he, h']
    · by_cases hq : e.1 = q <;> simp [statsGet, statsSet, he, hq, h, h', ih]

theorem statsGet_mem (l : List (JVal × PStats)) (p : JVal) (st : PStats)
    (h : statsGet l p = some st) : (p, st) ∈ l := by
  induction l with
  | nil => simp [statsGet] at h
  | cons e rest ih =>
    by_cases he : e.1 = p
    · rcases e with ⟨k, v⟩
      simp at he
      simp [statsGet, he] at h
      subst he
      subst h
      exact List.mem_cons_self _ _
    · simp [statsGet, he] at h
      exact List.mem_cons_of_mem _ (ih h)

theorem updateResults_submissions :
    ∀ (rl : List JVal) (st st' : PStats),
      updateResults st rl = .ok st' → st'.submissions = st.submissions := by
  intro rl
  induction rl with
  | nil =>
    intro st st' h
    simp [updateResults] at h
    rw [← h]
  | cons r rs ih =>
    intro st st' h
    cases hro : asObj r with
    | error e => simp [updateResults, hro, bind, Except.bind] at h
    | ok ro =>
      cases hacc : jidx ro "accuracy" with
      | error e => simp [updateResults, hro, hacc, bind, Except.bind] at h
      | ok accv =>
        cases haccn : asNum accv with
        | error e => simp [updateResults, hro, hacc, haccn, bind, Except.bind] at h
        | ok acc =>
          cases hts : jidx ro "timestamp" with
          | error e => simp [updateResults, hro, hacc, haccn, hts, bind, Except.bind] at h
          | ok tsv =>
            cases htss : asStr tsv with
            | error e =>
              simp [updateResults, hro, hacc, haccn, hts, htss, bind, Except.bind] at h
            | ok ts =>
              simp only [updateResults, hro, hacc, haccn, hts, htss, bind,
                Except.bind] at h
              rw [ih _ _ h]

/-- Loop invariant of `get_overall_ranking`'s submission loop: the
per-participant submission counter grows by exactly the number of
processed submissions carrying that participant id (empty `results`
included), and the accuracy list is untouched when all of that
participant's submissions have empty `results`. -/
theorem overallLoop_stats_spec :
    ∀ (subs : List JVal) (stats stats' : List (JVal × PStats)),
      overallLoop stats subs = .ok stats' → ∀ p : JVal,
        subCountAt stats' p
            = subCountAt stats p
              + subs.countP (fun s => decide (pidOfSubmission s = .ok p))
        ∧ ((∀ s ∈ subs, pidOfSubmission s = .ok p →
              ∃ so, s = .obj so ∧ jget so "results" = some (.arr [])) →
            accsAt stats' p = accsAt stats p) := by
  intro subs
  induction subs with
  | nil =>
    intro stats stats' h p
    simp only [overallLoop, Except.ok.injEq] at h
    subst h
    simp
  | cons sub rest ih =>
    intro stats stats' h p
    cases hpid : pidOfSubmission sub with
    | error e => rw [overallLoop] at h; simp [hpid, bind, Except.bind] at h
    | ok pid =>
      cases hso : asObj sub with
      | error e => rw [overallLoop] at h; simp [hpid, hso, bind, Except.bind] at h
      | ok so =>
        cases hresv : jidx so "results" with
        | error e =>
          rw [overallLoop] at h; simp [hpid, hso, hresv, bind, Except.bind] at h
        | ok resv =>
          cases hrl : asArr resv with
          | error e =>
            rw [overallLoop] at h
            simp [hpid, hso, hresv, hrl, bind, Except.bind] at h
          | ok rl =>
            cases hupd : updateResults
                { (statsGet stats pid).getD ⟨[], 0, ""⟩ with
                  submissions := ((statsGet stats pid).getD ⟨[], 0, ""⟩).submissions + 1 }
                rl with
            | error e =>
              rw [overallLoop] at h
              simp [hpid, hso, hresv, hrl, hupd, bind, Except.bind] at h
            | ok st2 =>
              rw [overallLoop] at h
              simp only [hpid, hso, hresv, hrl, hupd, bind, Except.bind] at h
              obtain ⟨hcount, haccs⟩ := ih (statsSet stats pid st2) stats' h p
              have hsub2 : st2.submissions
                  = ((statsGet stats pid).getD ⟨[], 0, ""⟩).submissions + 1 :=
                updateResults_submissions rl _ _ hupd
              by_cases hpq : pid = p
              · subst hpq
                constructor
                · rw [hcount, List.countP_cons]
                  have h1 : subCountAt (statsSet stats pid st2) pid = st2.submissions := by
                    simp [subCountAt, statsGet_statsSet_self]
                  have h2 : ((statsGet stats pid).getD ⟨[], 0, ""⟩).submissions
                      = subCountAt stats pid := by
                    cases hst : statsGet stats pid <;> simp [subCountAt, hst]
                  rw [h1, hsub2, h2]
                  simp [hpid]
                  omega
                · intro hemp
                  obtain ⟨so', hso', hres'⟩ := hemp sub (List.mem_cons_self sub rest) hpid
                  have hsubobj : sub = JVal.obj so := by
                    cases sub <;> simp [asObj] at hso
                    rw [hso]
                  have hsoeq : so' = so := by
                    rw [hsubobj] at hso'
                    exact (JVal.obj.injEq _ _ ▸ hso').symm ▸ rfl
                  have hresv' : resv = .arr [] := by
                    rw [jidx] at hresv
                    rw [← hsoeq, hres'] at hresv
                    simp at hresv
                    exact hresv.symm
                  have hrl' : rl = [] := by
                    rw [hresv'] at hrl
                    simpa [asArr] using hrl
                  have hst2 : st2
                      = { (statsGet stats pid).getD ⟨[], 0, ""⟩ with
                          submissions :=
                            ((statsGet stats pid).getD ⟨[], 0, ""⟩).submissions + 1 } := by
                    rw [hrl'] at hupd
                    simpa [updateResults] using hupd.symm
                  have haccseq : accsAt (statsSet stats pid st2) pid = accsAt stats pid := by
                    cases hst : statsGet stats pid <;>
                      simp [accsAt, statsGet_statsSet_self, hst2, hst]
                  rw [haccs (fun s' hs' hp' =>
                    hemp s' (List.mem_cons_of_mem _ hs') hp'), haccseq]
              · have hne : p ≠ pid := fun hh => hpq hh.symm
                constructor
                · rw [hcount, List.countP_cons]
                  have h1 : subCountAt (statsSet stats pid st2) p = subCountAt stats p := by
                    simp [subCountAt, statsGet_statsSet_ne stats pid p st2 hne]
                  have h2 : ¬(pidOfSubmission sub = Except.ok p) := by
                    rw [hpid]
                    intro hh
                    exact hpq (by injection hh)
                  rw [h1]
                  simp [h2]
                · intro hemp
                  have h1 : accsAt (statsSet stats pid st2) p = accsAt stats p := by
                    simp [accsAt, statsGet_statsSet_ne stats pid p st2 hne]
                  rw [haccs (fun s' hs' hp' =>
                    hemp s' (List.mem_cons_of_mem _ hs') hp'), h1]

/-- C10: every participant id appearing as
`participants["medical_agent"]` of some submission appears in the
output of `get_overall_ranking`; its `submissions` field counts every
submission carrying that id (ones with an empty `results` list
included), and a participant all of whose submissions have empty
`results` is ranked with `avg_accuracy = 0`. -/
theorem get_overall_ranking_membership :
    ∀ (subs : List JVal) (rows : List OverallRow),
      get_overall_ranking subs = .ok rows →
      ∀ s ∈ subs, ∀ p, pidOfSubmission s = .ok p →
        ∃ row ∈ rows, row.participant_id = p
          ∧ row.submissions
              = subs.countP (fun s' => decide (pidOfSubmission s' = .ok p))
          ∧ ((∀ s' ∈ subs, pidOfSubmission s' = .ok p →
                ∃ so, s' = .obj so ∧ jget so "results" = some (.arr [])) →
              row.avg_accuracy = 0) := by
  intro subs rows hok s hs p hp
  cases hloop : overallLoop [] subs with
  | error e => simp [get_overall_ranking, hloop, bind, Except.bind] at hok
  | ok stats =>
    simp only [get_overall_ranking, hloop, bind, Except.bind, Except.ok.injEq] at hok
    subst hok
    obtain ⟨hcount, haccs⟩ := overallLoop_stats_spec subs [] stats hloop p
    have hpos : 0 < subs.countP (fun s' => decide (pidOfSubmission s' = .ok p)) := by
      rw [List.countP_pos_iff]
      exact ⟨s, hs, by simp [hp]⟩
    rw [show subCountAt ([] : List (JVal × PStats)) p = 0 from rfl, Nat.zero_add] at hcount
    cases hst : statsGet stats p with
    | none =>
      simp [subCountAt, hst] at hcount
      omega
    | some st =>
      refine ⟨⟨p, avgAccuracy st.accuracies, st.submissions, st.latest_timestamp⟩,
        ?_, rfl, ?_, ?_⟩
      · have hmem : (p, st) ∈ stats := statsGet_mem _ _ _ hst
        exact ((List.perm_insertionSort ovRel _).mem_iff).mpr
          (List.mem_map_of_mem _ hmem)
      · simpa [subCountAt, hst] using hcount
      · intro hemp
        have hae := haccs hemp
        simp only [accsAt, statsGet, hst] at hae
        simp [avgAccuracy, hae]

theorem get_overall_ranking_membership_witness :
    ∃ row ∈ ([⟨.str "p", 0, 1, ""⟩] : List OverallRow),
      row.participant_id = .str "p"
      ∧ row.submissions
          = List.countP (fun s' => decide (pidOfSubmission s' = .ok (.str "p")))
              [.obj [("participants", .obj [("medical_agent", .str "p")]),
                ("results", .arr [])]]
      ∧ ((∀ s' ∈ [JVal.obj [("participants", .obj [("medical_agent", .str "p")]),
              ("results", .arr [])]], pidOfSubmission s' = .ok (.str "p") →
            ∃ so, s' = .obj so ∧ jget so "results" = some (.arr [])) →
          row.avg_accuracy = 0) :=
  get_overall_ranking_membership
    [.obj [("participants", .obj [("medical_agent", .str "p")]), ("results", .arr [])]]
    [⟨.str "p", 0, 1, ""⟩] (by decide)
    (.obj [("participants", .obj [("medical_agent", .str "p")]), ("results", .arr [])])
    (List.mem_cons_self _ _) (.str "p") (by decide)

/-- C7: in both `Subtask1Metrics.calculate` and `Subtask2Metrics.calculate`,
a result dict whose resolved total count is `0` yields accuracy exactly
`0.0` (the guarded branch, so no division-by-zero error occurs). -/
theorem calculate_zero_total_accuracy :
    (∀ (r : JObj) (now : String) (m : Subtask1Metrics),
        Subtask1Metrics.calculate r now = .ok m → m.total_tasks = 0 → m.accuracy = 0)
    ∧ (∀ (r : JObj) (now : String) (m : Subtask2Metrics),
        Subtask2Metrics.calculate r now = .ok m → m.total_cases = 0 → m.accuracy = 0) := by
  constructor
  · intro r now m hok h0
    obtain ⟨tt, cc, acc, ts⟩ := m
    cases h1 : asNum (jgetD r "total_tasks" (.num 0)) with
    | error e => simp [Subtask1Metrics.calculate, h1, bind, Except.bind] at hok
    | ok t =>
      cases h2 : asNum (jgetD r "correct_count" (jgetD r "correct_tasks" (.num 0))) with
      | error e => simp [Subtask1Metrics.calculate, h1, h2, bind, Except.bind] at hok
      | ok c =>
        simp [Subtask1Metrics.calculate, h1, h2, bind, Except.bind,
          Subtask1Metrics.mk.injEq] at hok
        obtain ⟨h3, h4, h5, h6⟩ := hok
        simp at h0
        subst h3; subst h5
        simp [h0] at *
  · intro r now m hok h0
    obtain ⟨tt, cc, acc, hall, ts⟩ := m
    cases h1 : asNum (jgetD r "total_cases" (jgetD r "total_tasks" (.num 0))) with
    | error e => simp [Subtask2Metrics.calculate, h1, bind, Except.bind] at hok
    | ok t =>
      cases h2 : asNum (jgetD r "correct_answers" (jgetD r "correct_cases" (.num 0))) with
      | error e => simp [Subtask2Metrics.calculate, h1, h2, bind, Except.bind] at hok
      | ok c =>
        simp [Subtask2Metrics.calculate, h1, h2, bind, Except.bind,
          Subtask2Metrics.mk.injEq] at hok
        obtain ⟨h3, h4, h5, h6, h7⟩ := hok
        simp at h0
        subst h3; subst h5
        simp [h0] at *

theorem calculate_zero_total_accuracy_witness :
    Subtask1Metrics.calculate [("total_tasks", .num 0), ("correct_count", .num 5)] "t"
        = .ok ⟨0, 5, 0, "t"⟩
      ∧ (⟨0, 5, 0, "t"⟩ : Subtask1Metrics).accuracy = 0 :=
  ⟨by decide,
   calculate_zero_total_accuracy.1 [("total_tasks", .num 0), ("correct_count", .num 5)]
     "t" ⟨0, 5, 0, "t"⟩ (by decide) (by decide)⟩

/-- C8: `Subtask2Metrics.calculate` defaults `hallucination_rate` to
`1.0 - accuracy` exactly when the key is absent from the input, and uses
the reported value verbatim when the key is present. -/
theorem calculate_hallucination_rate_rule :
    ∀ (r : JObj) (now : String) (m : Subtask2Metrics),
      Subtask2Metrics.calculate r now = .ok m →
        (jget r "hallucination_rate" = none →
            m.hallucination_rate = .num (1 - m.accuracy))
        ∧ (∀ v, jget r "hallucination_rate" = some v → m.hallucination_rate = v) := by
  intro r now m hok
  obtain ⟨tt, cc, acc, hall, ts⟩ := m
  cases h1 : asNum (jgetD r "total_cases" (jgetD r "total_tasks" (.num 0))) with
  | error e => simp [Subtask2Metrics.calculate, h1, bind, Except.bind] at hok
  | ok t =>
    cases h2 : asNum (jgetD r "correct_answers" (jgetD r "correct_cases" (.num 0))) with
    | error e => simp [Subtask2Metrics.calculate, h1, h2, bind, Except.bind] at hok
    | ok c =>
      simp [Subtask2Metrics.calculate, h1, h2, bind, Except.bind,
        Subtask2Metrics.mk.injEq] at hok
      obtain ⟨h3, h4, h5, h6, h7⟩ := hok
      constructor
      · intro habsent
        simp [jgetD, habsent] at h6
        rw [← h6, ← h5]
      · intro v hpresent
        simp [jgetD, hpresent] at h6
        rw [← h6]

theorem calculate_hallucination_rate_rule_witness :
    ((⟨0, 0, 0, .num 3, "t"⟩ : Subtask2Metrics).hallucination_rate = .num 3)
      ∧ ((⟨0, 0, 0, .num 1, "t"⟩ : Subtask2Metrics).hallucination_rate
          = .num (1 - (⟨0, 0, 0, .num 1, "t"⟩ : Subtask2Metrics).accuracy)) :=
  ⟨(calculate_hallucination_rate_rule [("hallucination_rate", .num 3)] "t"
      ⟨0, 0, 0, .num 3, "t"⟩ (by decide)).2 (.num 3) (by decide),
   (calculate_hallucination_rate_rule [] "t" ⟨0, 0, 0, .num 1, "t"⟩
      (by simp [Subtask2Metrics.calculate, asNum, jgetD, jget, bind, Except.bind])).1
     (by decide)⟩

/-! ### Claims about the Format Normalizer -/

/-- Case 1 of the cascade passes an already-canonical document through
unchanged (shared helper: the explicit `participant_id`, when truthy,
is never replaced there). -/
theorem transform_case1_passthrough (a : JObj) (fs : Option JObj) (now : String)
    (v : JVal) (hsub : (jget a "subtask").isSome = true)
    (hpid : jget a "participant_id" = some v) (hv : truthy v = true) :
    transform_agentbeats_results a fs now
      = .ok [("participants", jgetD a "participants" (.obj [])),
             ("results", .arr [.obj a])] := by
  simp only [transform_agentbeats_results]
  have hc : (jget a "subtask").isSome ∧ (jget a "participant_id").isSome := by
    rw [hpid, hsub]; exact ⟨rfl, rfl⟩
  rw [if_pos hc]
  have ht : truthy (jgetN a "participant_id") = true := by
    rw [jgetN, jgetD, hpid]; exact hv
  simp [ht]

/-- C1 counterexample: normalization is not idempotent.  For the
already-canonical record `x = {subtask: subtask2, participant_id: p,
accuracy: 1, timestamp: T}`, the first application wraps `x`
unchanged, but the second application routes the wrapped document
through the raw-result path (Case 2), which re-derives the subtask as
`subtask1` and replaces the metrics — so
`normalize (normalize x) ≠ normalize x`. -/
theorem normalize_idempotence_cex :
    transform_agentbeats_results
        [("subtask", .str "subtask2"), ("participant_id", .str "p"),
         ("accuracy", .num 1), ("timestamp", .str "T")] none "T"
      = .ok [("participants", .obj []), ("results", .arr [.obj
          [("subtask", .str "subtask2"), ("participant_id", .str "p"),
           ("accuracy", .num 1), ("timestamp", .str "T")]])]
    ∧ transform_agentbeats_results
        [("participants", .obj []), ("results", .arr [.obj
          [("subtask", .str "subtask2"), ("participant_id", .str "p"),
           ("accuracy", .num 1), ("timestamp", .str "T")]])] none "T"
      = .ok [("participants", .obj []), ("results", .arr [.obj
          [("subtask", .str "subtask1"), ("participant_id", .str "p"),
           ("timestamp", .str "T"), ("config", .obj []),
           ("score", .num 0), ("success_rate", .num 0)]])]
    ∧ ([("participants", JVal.obj []), ("results", JVal.arr [.obj
          [("subtask", .str "subtask1"), ("participant_id", .str "p"),
           ("timestamp", .str "T"), ("config", .obj []),
           ("score", .num 0), ("success_rate", .num 0)]])] : JObj)
        ≠ [("participants", JVal.obj []), ("results", JVal.arr [.obj
          [("subtask", .str "subtask2"), ("participant_id", .str "p"),
           ("accuracy", .num 1), ("timestamp", .str "T")]])] := by
  refine ⟨by decide, by decide, by decide⟩

/-- C1 amended: a single application of the Normalizer embeds an
already-canonical document (carrying `subtask` and a truthy
`participant_id`) unchanged as the single result; idempotence fails
only from the second application on. -/
theorem normalize_canonical_single_pass :
    ∀ (a : JObj) (fs : Option JObj) (now : String) (v : JVal),
      (jget a "subtask").isSome = true → jget a "participant_id" = some v →
      truthy v = true →
      ∃ w, transform_agentbeats_results a fs now = .ok w
        ∧ jget w "results" = some (.arr [.obj a]) := by
  intro a fs now v hsub hpid hv
  refine ⟨_, transform_case1_passthrough a fs now v hsub hpid hv, ?_⟩
  simp [jget]

theorem normalize_canonical_single_pass_witness :
    ∃ w, transform_agentbeats_results
        [("subtask", .str "subtask2"), ("participant_id", .str "p"),
         ("accuracy", .num 1), ("timestamp", .str "T")] none "T" = .ok w
      ∧ jget w "results" = some (.arr [.obj
          [("subtask", .str "subtask2"), ("participant_id", .str "p"),
           ("accuracy", .num 1), ("timestamp", .str "T")]]) :=
  normalize_canonical_single_pass
    [("subtask", .str "subtask2"), ("participant_id", .str "p"),
     ("accuracy", .num 1), ("timestamp", .str "T")] none "T" (.str "p")
    (by decide) (by decide) (by decide)

/-- C2 counterexample: the legacy subtask2 record
`{result_data: {subtask: subtask2, accuracy: 0.9, hallucination_rate:
0.1, metrics: {total_cases: 20}}}` does NOT normalize to a record with
`total_tasks = 20` and `correct_tasks = 18`: the produced record
carries no `total_tasks`/`correct_tasks` keys at all
(`extract_leaderboard_metrics` for subtask2 reads only `accuracy` and
`hallucination_rate`; `metrics.total_cases` is never consulted and no
`round(total * accuracy)` is computed). -/
theorem legacy_subtask2_cex :
    transform_pharmagent_results
        [("result_data", .obj [("subtask", .str "subtask2"),
          ("accuracy", .num (mkRat 9 10)), ("hallucination_rate", .num (mkRat 1 10)),
          ("metrics", .obj [("total_cases", .num 20)])])] none "NOW"
      = .ok [("subtask", .str "subtask2"), ("participant_id", .str "unknown"),
             ("timestamp", .str "NOW"), ("config", .obj []),
             ("accuracy", .num (mkRat 9 10)), ("hallucination_rate", .num (mkRat 1 10))]
    ∧ jget [("subtask", JVal.str "subtask2"), ("participant_id", JVal.str "unknown"),
            ("timestamp", JVal.str "NOW"), ("config", JVal.obj []),
            ("accuracy", JVal.num (mkRat 9 10)),
            ("hallucination_rate", JVal.num (mkRat 1 10))] "total_tasks" = none := by
  refine ⟨by decide, by decide⟩

/-- C2 amended: the legacy record normalizes to a record carrying
`accuracy = 0.9` and `hallucination_rate = 0.1` read directly from
`result_data`, with no `total_tasks` or `correct_tasks` fields. -/
theorem legacy_subtask2_metrics :
    ∃ out, transform_pharmagent_results
        [("result_data", .obj [("subtask", .str "subtask2"),
          ("accuracy", .num (mkRat 9 10)), ("hallucination_rate", .num (mkRat 1 10)),
          ("metrics", .obj [("total_cases", .num 20)])])] none "NOW" = .ok out
      ∧ jget out "accuracy" = some (.num (mkRat 9 10))
      ∧ jget out "hallucination_rate" = some (.num (mkRat 1 10))
      ∧ jget out "total_tasks" = none
      ∧ jget out "correct_tasks" = none :=
  ⟨[("subtask", .str "subtask2"), ("participant_id", .str "unknown"),
    ("timestamp", .str "NOW"), ("config", .obj []),
    ("accuracy", .num (mkRat 9 10)), ("hallucination_rate", .num (mkRat 1 10))],
   by refine ⟨by decide, by decide, by decide, by decide, by decide⟩⟩

/-- C5 counterexample: in the raw-result path (Case 2) a record's
explicit `participant_id` IS overwritten by the first value of the
sibling `participants` mapping: the input record carries
`participant_id = "EXPLICIT"`, the output record carries `"P1"`. -/
theorem participant_overwrite_cex :
    jget [("participant_id", JVal.str "EXPLICIT"),
          ("result_data", JVal.obj [("subtask", .str "subtask1"), ("score", .num 1)])]
        "participant_id" = some (.str "EXPLICIT")
    ∧ transform_agentbeats_results
        [("participants", .obj [("medical_agent", .str "P1")]),
         ("results", .arr [.obj [("participant_id", .str "EXPLICIT"),
           ("result_data", .obj [("subtask", .str "subtask1"), ("score", .num 1)])]])]
        none "NOW"
      = .ok [("participants", .obj [("medical_agent", .str "P1")]),
             ("results", .arr [.obj
               [("subtask", .str "subtask1"), ("participant_id", .str "P1"),
                ("timestamp", .str "NOW"), ("config", .obj []),
                ("score", .num 1), ("success_rate", .num 0)]])]
    ∧ jget [("subtask", JVal.str "subtask1"), ("participant_id", JVal.str "P1"),
            ("timestamp", JVal.str "NOW"), ("config", JVal.obj []),
            ("score", JVal.num 1), ("success_rate", JVal.num 0)]
        "participant_id" = some (.str "P1") := by
  refine ⟨by decide, by decide, by decide⟩

/-- C5 amended: the record's explicit `participant_id` wins over the
sibling `participants` mapping only in the already-canonical case
(Case 1); in the raw `result_data` path the truthy first participants
value is written over whatever `participant_id` the document carried
before `transform_pharmagent_results` runs. -/
theorem participant_priority :
    (∀ (a : JObj) (fs : Option JObj) (now : String) (v : JVal),
      (jget a "subtask").isSome = true → jget a "participant_id" = some v →
      truthy v = true →
      transform_agentbeats_results a fs now
        = .ok [("participants", jgetD a "participants" (.obj [])),
               ("results", .arr [.obj a])])
    ∧ (∀ (a : JObj) (fs : Option JObj) (now : String) (k : String) (v : JVal)
        (kvs : JObj),
      jget a "subtask" = none → jget a "results" = none → jget a "artifacts" = none →
      (jget a "result_data").isSome = true →
      jget a "participants" = some (.obj ((k, v) :: kvs)) → truthy v = true →
      transform_agentbeats_results a fs now
        = (transform_pharmagent_results (jset a "participant_id" v) fs now).map
            (fun t => [("participants", .obj ((k, v) :: kvs)),
                       ("results", .arr [.obj t])])) := by
  constructor
  · exact fun a fs now v hsub hpid hv =>
      transform_case1_passthrough a fs now v hsub hpid hv
  · intro a fs now k v kvs hsub hres hart hrd hparts hv
    have hfp : firstParticipantValue a = v := by
      rw [firstParticipantValue, hparts]
    simp only [transform_agentbeats_results, hfp]
    rw [hsub]
    simp only [Option.isSome_none, Bool.false_eq_true, false_and, if_false]
    rw [hres]
    simp only [transformAgentbeatsCase3]
    rw [hart]
    simp only [transformAgentbeatsCase4]
    rw [hrd]
    simp [hv, jgetD, hparts]

theorem participant_priority_witness :
    (transform_agentbeats_results
        [("subtask", .str "subtask1"), ("participant_id", .str "EXPLICIT"),
         ("participants", .obj [("medical_agent", .str "P1")])] none "T"
      = .ok [("participants", .obj [("medical_agent", .str "P1")]),
             ("results", .arr [.obj
               [("subtask", .str "subtask1"), ("participant_id", .str "EXPLICIT"),
                ("participants", .obj [("medical_agent", .str "P1")])]])])
    ∧ (transform_agentbeats_results
        [("participant_id", .str "EXPLICIT"),
         ("result_data", .obj [("subtask", .str "subtask1"), ("score", .num 1)]),
         ("participants", .obj [("medical_agent", .str "P1")])] none "T"
      = (transform_pharmagent_results
          (jset [("participant_id", .str "EXPLICIT"),
            ("result_data", .obj [("subtask", .str "subtask1"), ("score", .num 1)]),
            ("participants", .obj [("medical_agent", .str "P1")])]
            "participant_id" (.str "P1")) none "T").map
          (fun t => [("participants", .obj [("medical_agent", .str "P1")]),
                     ("results", .arr [.obj t])])) :=
  ⟨participant_priority.1
      [("subtask", .str "subtask1"), ("participant_id", .str "EXPLICIT"),
       ("participants", .obj [("medical_agent", .str "P1")])] none "T"
      (.str "EXPLICIT") (by decide) (by decide) (by decide),
   participant_priority.2
      [("participant_id", .str "EXPLICIT"),
       ("result_data", .obj [("subtask", .str "subtask1"), ("score", .num 1)]),
       ("participants", .obj [("medical_agent", .str "P1")])] none "T"
      "medical_agent" (.str "P1") [] (by decide) (by decide) (by decide)
      (by decide) (by decide) (by decide)⟩

/-- C6 counterexample: `transform_pharmagent_results` is not a pure
function of the input document: on a record lacking a
`participant_id` its output depends on the `scenario.toml` file state,
and on a record lacking a timestamp it depends on the wall clock. -/
theorem normalizer_impure_cex :
    transform_pharmagent_results
        [("result_data", .obj [("subtask", .str "subtask1"), ("score", .num 1)])]
        none "T"
      ≠ transform_pharmagent_results
        [("result_data", .obj [("subtask", .str "subtask1"), ("score", .num 1)])]
        (some [("participants", .arr [.obj [("agentbeats_id", .str "alice")]])]) "T"
    ∧ transform_pharmagent_results
        [("result_data", .obj [("subtask", .str "subtask1"), ("score", .num 1)])]
        none "T1"
      ≠ transform_pharmagent_results
        [("result_data", .obj [("subtask", .str "subtask1"), ("score", .num 1)])]
        none "T2" := by
  refine ⟨by decide, by decide⟩

theorem resolveParticipantId_of_explicit (p : JObj) (fs : Option JObj) (v : JVal)
    (hpid : jget p "participant_id" = some v) (hv : truthy v = true)
    (hvu : v ≠ .str "unknown") :
    resolveParticipantId p fs = .ok v := by
  rw [resolveParticipantId]
  simp [jgetN, jgetD, hpid, hv, hvu]

theorem resolveTimestamp_now_independent (rd p : JObj) (ts : String)
    (hts : jget p "timestamp" = some (.str ts)) (htsne : ts ≠ "")
    (now1 now2 : String) :
    resolveTimestamp rd p now1 = resolveTimestamp rd p now2 := by
  rw [resolveTimestamp, resolveTimestamp]
  have h2 : truthy (jgetN p "timestamp") = true := by
    rw [jgetN, jgetD, hts]
    simp [truthy, htsne]
  have h3 : truthy (pyOr (jgetN rd "timestamp") (pyOr (jgetN p "timestamp") (.str "")))
      = true := by
    by_cases h : truthy (jgetN rd "timestamp") = true <;> simp [pyOr, h, h2]
  rw [if_pos h3, if_pos h3]

/-- C6 amended: normalization depends on the ambient state
(`scenario.toml`, wall clock) only through the participant-id and
timestamp fallbacks: on a document carrying a truthy `participant_id`
different from `"unknown"` and a truthy string timestamp, its output
is independent of the file system and the clock — and two runs on the
same document, fixed file state and fixed clock are equal by
construction. -/
theorem transform_pharmagent_state_independent :
    ∀ (p : JObj) (fs1 fs2 : Option JObj) (now1 now2 : String) (v : JVal) (ts : String),
      jget p "participant_id" = some v → truthy v = true → v ≠ .str "unknown" →
      jget p "timestamp" = some (.str ts) → ts ≠ "" →
      transform_pharmagent_results p fs1 now1 = transform_pharmagent_results p fs2 now2 := by
  intro p fs1 fs2 now1 now2 v ts hpid hv hvu hts htsne
  have hA1 : resolveParticipantId p fs1 = .ok v :=
    resolveParticipantId_of_explicit p fs1 v hpid hv hvu
  have hA2 : resolveParticipantId p fs2 = .ok v :=
    resolveParticipantId_of_explicit p fs2 v hpid hv hvu
  have hB : ∀ rd : JObj, resolveTimestamp rd p now1 = resolveTimestamp rd p now2 :=
    fun rd => resolveTimestamp_now_independent rd p ts hts htsne now1 now2
  simp only [transform_pharmagent_results, hA1, hA2, hB]

theorem transform_pharmagent_state_independent_witness :
    transform_pharmagent_results
        [("participant_id", .str "p"), ("timestamp", .str "T"),
         ("result_data", .obj [("subtask", .str "subtask1"), ("score", .num 1)])]
        none "T1"
      = transform_pharmagent_results
        [("participant_id", .str "p"), ("timestamp", .str "T"),
         ("result_data", .obj [("subtask", .str "subtask1"), ("score", .num 1)])]
        (some [("participants", .arr [.obj [("agentbeats_id", .str "alice")]])]) "T2" :=
  transform_pharmagent_state_independent
    [("participant_id", .str "p"), ("timestamp", .str "T"),
     ("result_data", .obj [("subtask", .str "subtask1"), ("score", .num 1)])]
    none (some [("participants", .arr [.obj [("agentbeats_id", .str "alice")]])])
    "T1" "T2" (.str "p") "T" (by decide) (by decide) (by decide) (by decide) (by decide)

theorem transformAgentbeatsCase4_singleton (a : JObj) (pv po : JVal)
    (fs : Option JObj) (now : String) (out : JObj)
    (h : transformAgentbeatsCase4 a pv po fs now = .ok out) :
    ∃ r, jget out "results" = some (.arr [r]) := by
  simp only [transformAgentbeatsCase4] at h
  by_cases hrd : (jget a "result_data").isSome = true
  · rw [if_pos hrd] at h
    cases ht : transform_pharmagent_results
        (if truthy po = true then jset a "participant_id" po else a) fs now with
    | error e => rw [ht] at h; simp [Except.map] at h
    | ok t =>
      rw [ht] at h
      simp only [Except.map, Except.ok.injEq] at h
      subst h
      exact ⟨.obj t, by simp [jget]⟩
  · rw [if_neg hrd] at h
    simp only [Except.ok.injEq] at h
    subst h
    exact ⟨.obj (if truthy po = true ∧ jget a "participant_id" = none
      then jset a "participant_id" po else a), by simp [jget]⟩

theorem transformAgentbeatsCase3_singleton (a : JObj) (pv po : JVal)
    (fs : Option JObj) (now : String) (out : JObj)
    (h : transformAgentbeatsCase3 a pv po fs now = .ok out) :
    ∃ r, jget out "results" = some (.arr [r]) := by
  simp only [transformAgentbeatsCase3] at h
  cases hart : jget a "artifacts" with
  | none =>
    rw [hart] at h
    exact transformAgentbeatsCase4_singleton a pv po fs now out h
  | some av =>
    rw [hart] at h
    simp only [] at h
    cases harr : asArr av with
    | error e => rw [harr] at h; simp [bind, Except.bind] at h
    | ok arts =>
      rw [harr] at h
      simp only [bind, Except.bind] at h
      cases hfind : findEvalData arts with
      | error e => rw [hfind] at h; simp at h
      | ok od =>
        rw [hfind] at h
        cases od with
        | none => exact transformAgentbeatsCase4_singleton a pv po fs now out h
        | some dobj =>
          simp only at h
          cases ht : transform_pharmagent_results
              (if truthy po = true then jset dobj "participant_id" po else dobj) fs now with
          | error e => rw [ht] at h; simp at h
          | ok t =>
            rw [ht] at h
            simp only [Except.ok.injEq] at h
            subst h
            exact ⟨.obj t, by simp [jget]⟩

/-- C9: whatever input document `transform_agentbeats_results`
receives, a returned Submission carries a `results` list of length
exactly one; with a non-empty `results` array only the head element is
processed (the tail never influences the output); and a document
matching no known shape is wrapped whole as the single result. -/
theorem normalize_results_singleton :
    (∀ (a : JObj) (fs : Option JObj) (now : String) (out : JObj),
      transform_agentbeats_results a fs now = .ok out →
      ∃ r, jget out "results" = some (.arr [r]))
    ∧ (∀ (a : JObj) (fs : Option JObj) (now : String) (r : JVal) (rs : List JVal),
      jget a "subtask" = none → jget a "results" = some (.arr (r :: rs)) →
      transform_agentbeats_results a fs now
        = (transformResultItem r (firstParticipantValue a) fs now).map
            (fun t => [("participants", jgetD a "participants" (.obj [])),
                       ("results", .arr [t])]))
    ∧ (∀ (a : JObj) (fs : Option JObj) (now : String),
      jget a "subtask" = none → jget a "results" = none →
      jget a "artifacts" = none → jget a "result_data" = none →
      jget a "participants" = none →
      transform_agentbeats_results a fs now
        = .ok [("participants", .obj []), ("results", .arr [.obj a])]) := by
  refine ⟨?_, ?_, ?_⟩
  · intro a fs now out h
    simp only [transform_agentbeats_results] at h
    by_cases hc : (jget a "subtask").isSome ∧ (jget a "participant_id").isSome
    · rw [if_pos hc] at h
      simp only [Except.ok.injEq] at h
      subst h
      exact ⟨.obj (if truthy (firstParticipantValue a) = true
          ∧ truthy (jgetN a "participant_id") = false
        then jset a "participant_id" (firstParticipantValue a) else a), by simp [jget]⟩
    · rw [if_neg hc] at h
      cases hres : jget a "results" with
      | none =>
        rw [hres] at h
        simp only [] at h
        exact transformAgentbeatsCase3_singleton _ _ _ _ _ _ h
      | some rv =>
        rw [hres] at h
        cases rv with
        | arr xs =>
          cases xs with
          | nil =>
            simp only [] at h
            exact transformAgentbeatsCase3_singleton _ _ _ _ _ _ h
          | cons r rs =>
            simp only [] at h
            cases ht : transformResultItem r (firstParticipantValue a) fs now with
            | error e => rw [ht] at h; simp [Except.map] at h
            | ok t =>
              rw [ht] at h
              simp only [Except.map, Except.ok.injEq] at h
              subst h
              exact ⟨t, by simp [jget]⟩
        | null =>
          simp only [] at h
          exact transformAgentbeatsCase3_singleton _ _ _ _ _ _ h
        | bool b =>
          simp only [] at h
          exact transformAgentbeatsCase3_singleton _ _ _ _ _ _ h
        | num q =>
          simp only [] at h
          exact transformAgentbeatsCase3_singleton _ _ _ _ _ _ h
        | str s =>
          simp only [] at h
          exact transformAgentbeatsCase3_singleton _ _ _ _ _ _ h
        | obj o =>
          simp only [] at h
          exact transformAgentbeatsCase3_singleton _ _ _ _ _ _ h
  · intro a fs now r rs hsub hres
    simp only [transform_agentbeats_results]
    rw [hsub]
    simp only [Option.isSome_none, Bool.false_eq_true, false_and, if_false]
    rw [hres]
  · intro a fs now hsub hres hart hrd hparts
    have hfp : firstParticipantValue a = .null := by
      rw [firstParticipantValue, hparts]
    simp only [transform_agentbeats_results, hfp]
    rw [hsub]
    simp only [Option.isSome_none, Bool.false_eq_true, false_and, if_false]
    rw [hres]
    simp only [transformAgentbeatsCase3]
    rw [hart]
    simp only [transformAgentbeatsCase4]
    rw [hrd]
    simp [truthy, jgetD, hparts]

theorem normalize_results_singleton_witness :
    ∃ r, jget [("participants", JVal.obj []),
               ("results", JVal.arr [JVal.obj []])] "results"
      = some (.arr [r]) :=
  normalize_results_singleton.1 [] none "T"
    [("participants", JVal.obj []), ("results", JVal.arr [JVal.obj []])] (by decide)

end Pharma

